import Mathlib

/-
  Verification development for the OmniView camera orchestration core.

  The Python source (src/omniview/threads.py, src/omniview/managers.py,
  src/omniview/manager.py, app.py) is shallowly embedded below:

  * the per-camera capture worker (BaseCameraThread.run,
    _process_camera_stream, _handle_camera_error) becomes a deterministic
    interpreter over a script of open attempts and read events;
  * the frame drain (BaseCameraManager.process_frames,
    _update_camera_state, _add_cached_frames) becomes a fold over the
    queued items with Python-exception semantics modelled by Except;
  * the reconciliation predicates (_should_remove_camera in both
    manager variants, IPCameraManager._get_available_devices) become
    boolean functions;
  * shutdown (BaseCameraManager.stop, _remove_camera,
    _cleanup_gui_resources) becomes a state transformer parameterised by
    oracles for the fallible collaborator calls (join timeout,
    cv2.destroyWindow raising);
  * the whole manager lifecycle (monitor ticks, thread deaths, stop)
    becomes a transition system with a reachability predicate, used for
    the one-live-worker-per-device invariant.

  Durations and timestamps are rationals; Python dicts are association
  lists with insertion-order update-in-place semantics.
-/

namespace OmniView

/-! ### Association-list helpers (Python dict operations) -/

def keys {α : Type} (l : List (Nat × α)) : List Nat :=
  l.map Prod.fst

def lookupA {α : Type} : List (Nat × α) → Nat → Option α
  | [], _ => none
  | p :: rest, k => if p.1 = k then some p.2 else lookupA rest k

def setA {α : Type} : List (Nat × α) → Nat → α → List (Nat × α)
  | [], k, v => [(k, v)]
  | p :: rest, k, v => if p.1 = k then (k, v) :: rest else p :: setA rest k v

def eraseKey {α : Type} (l : List (Nat × α)) (k : Nat) : List (Nat × α) :=
  l.filter (fun p => p.1 != k)

theorem lookupA_mem {α : Type} {l : List (Nat × α)} {k : Nat} {v : α}
    (h : lookupA l k = some v) : (k, v) ∈ l := by
  induction l with
  | nil => simp [lookupA] at h
  | cons p rest ih =>
    by_cases hk : p.1 = k
    · simp [lookupA, hk] at h
      have : p = (k, v) := by
        cases p
        simp_all
      rw [← this]
      exact List.mem_cons_self _ _
    · simp [lookupA, hk] at h
      right
      exact ih h

theorem mem_keys_of_mem {α : Type} {l : List (Nat × α)} {p : Nat × α}
    (h : p ∈ l) : p.1 ∈ keys l :=
  List.mem_map_of_mem Prod.fst h

theorem lookupA_isSome_of_mem {α : Type} {l : List (Nat × α)} {k : Nat} {v : α}
    (h : (k, v) ∈ l) : (lookupA l k).isSome = true := by
  induction l with
  | nil => simp at h
  | cons p rest ih =>
    rcases List.mem_cons.mp h with h1 | h1
    · simp [lookupA, ← h1]
    · by_cases hk : p.1 = k
      · simp [lookupA, hk]
      · simp [lookupA, hk]
        exact ih h1

theorem lookupA_none_not_mem {α : Type} {l : List (Nat × α)} {k : Nat}
    (h : lookupA l k = none) {v : α} : (k, v) ∉ l := by
  intro hm
  have := lookupA_isSome_of_mem hm
  rw [h] at this
  simp at this

theorem lookupA_of_mem_nodup {α : Type} {l : List (Nat × α)} {k : Nat} {v : α}
    (hnd : (keys l).Nodup) (h : (k, v) ∈ l) : lookupA l k = some v := by
  induction l with
  | nil => simp at h
  | cons p rest ih =>
    simp only [keys, List.map_cons, List.nodup_cons] at hnd
    rcases List.mem_cons.mp h with h1 | h1
    · rw [← h1]
      simp [lookupA]
    · have hp1 : p.1 ≠ k := by
        intro he
        exact hnd.1 (he ▸ mem_keys_of_mem h1)
      simp [lookupA, hp1]
      exact ih hnd.2 h1

theorem keys_nodup_mem_unique {α : Type} {l : List (Nat × α)} {k : Nat} {a b : α}
    (hnd : (keys l).Nodup) (ha : (k, a) ∈ l) (hb : (k, b) ∈ l) : a = b := by
  have h1 := lookupA_of_mem_nodup hnd ha
  have h2 := lookupA_of_mem_nodup hnd hb
  rw [h1] at h2
  exact Option.some.inj h2

theorem mem_setA_weak {α : Type} {l : List (Nat × α)} {k : Nat} {v : α} {p : Nat × α}
    (h : p ∈ setA l k v) : p = (k, v) ∨ p ∈ l := by
  induction l with
  | nil => simp [setA] at h; left; exact h
  | cons q rest ih =>
    by_cases hk : q.1 = k
    · simp [setA, hk] at h
      rcases h with h1 | h1
      · left; exact h1
      · right; exact List.mem_cons_of_mem _ h1
    · simp only [setA, if_neg hk, List.mem_cons] at h
      rcases h with h1 | h1
      · right; exact h1 ▸ List.mem_cons_self _ _
      · rcases ih h1 with h2 | h2
        · left; exact h2
        · right; exact List.mem_cons_of_mem _ h2

theorem mem_setA_self {α : Type} (l : List (Nat × α)) (k : Nat) (v : α) :
    (k, v) ∈ setA l k v := by
  induction l with
  | nil => simp [setA]
  | cons q rest ih =>
    by_cases hk : q.1 = k
    · simp [setA, hk]
    · simp only [setA, if_neg hk, List.mem_cons]
      right; exact ih

theorem mem_setA_of_ne {α : Type} {l : List (Nat × α)} {k : Nat} {v : α} {p : Nat × α}
    (h : p ∈ l) (hne : p.1 ≠ k) : p ∈ setA l k v := by
  induction l with
  | nil => simp at h
  | cons q rest ih =>
    by_cases hk : q.1 = k
    · simp only [setA, if_pos hk, List.mem_cons]
      rcases List.mem_cons.mp h with h1 | h1
      · exact absurd (h1 ▸ hk) hne
      · right; exact h1
    · simp only [setA, if_neg hk, List.mem_cons]
      rcases List.mem_cons.mp h with h1 | h1
      · left; exact h1
      · right; exact ih h1

theorem mem_keys_setA_sub {α : Type} {l : List (Nat × α)} {k : Nat} {v : α} {x : Nat}
    (h : x ∈ keys (setA l k v)) : x ∈ keys l ∨ x = k := by
  simp only [keys, List.mem_map] at h
  obtain ⟨p, hp, hx⟩ := h
  rcases mem_setA_weak hp with h1 | h1
  · right; rw [← hx, h1]
  · left; exact hx ▸ mem_keys_of_mem h1

theorem keys_setA_nodup {α : Type} {l : List (Nat × α)} {k : Nat} {v : α}
    (h : (keys l).Nodup) : (keys (setA l k v)).Nodup := by
  induction l with
  | nil => simp [setA, keys]
  | cons q rest ih =>
    simp only [keys, List.map_cons, List.nodup_cons] at h
    by_cases hk : q.1 = k
    · simp only [setA, if_pos hk, keys, List.map_cons, List.nodup_cons]
      exact ⟨hk ▸ h.1, h.2⟩
    · simp only [setA, if_neg hk, keys, List.map_cons, List.nodup_cons]
      refine ⟨?_, ih h.2⟩
      intro hmem
      rcases mem_keys_setA_sub hmem with h1 | h1
      · exact h.1 h1
      · exact hk h1

theorem mem_setA_nodup {α : Type} {l : List (Nat × α)} {k : Nat} {v : α} {p : Nat × α}
    (hnd : (keys l).Nodup) (h : p ∈ setA l k v) : p = (k, v) ∨ (p ∈ l ∧ p.1 ≠ k) := by
  induction l with
  | nil => simp [setA] at h; left; exact h
  | cons q rest ih =>
    simp only [keys, List.map_cons, List.nodup_cons] at hnd
    by_cases hk : q.1 = k
    · simp only [setA, if_pos hk, List.mem_cons] at h
      rcases h with h1 | h1
      · left; exact h1
      · right
        refine ⟨List.mem_cons_of_mem _ h1, ?_⟩
        intro he
        exact hnd.1 (hk ▸ he ▸ mem_keys_of_mem h1)
    · simp only [setA, if_neg hk, List.mem_cons] at h
      rcases h with h1 | h1
      · right
        exact ⟨h1 ▸ List.mem_cons_self _ _, h1 ▸ hk⟩
      · rcases ih hnd.2 h1 with h2 | h2
        · left; exact h2
        · right; exact ⟨List.mem_cons_of_mem _ h2.1, h2.2⟩

theorem mem_eraseKey {α : Type} {l : List (Nat × α)} {k : Nat} {p : Nat × α} :
    p ∈ eraseKey l k ↔ p ∈ l ∧ p.1 ≠ k := by
  simp [eraseKey, List.mem_filter, bne_iff_ne]

theorem eraseKey_sublist {α : Type} (l : List (Nat × α)) (k : Nat) :
    (eraseKey l k).Sublist l :=
  List.filter_sublist l

theorem keys_eraseKey_nodup {α : Type} {l : List (Nat × α)} {k : Nat}
    (h : (keys l).Nodup) : (keys (eraseKey l k)).Nodup :=
  List.Nodup.sublist (List.Sublist.map Prod.fst (eraseKey_sublist l k)) h

/-! ### Frames and worker effects -/

/-- A video frame: the shape of its pixel buffer (as produced by the
capture collaborator) plus an identifying tag.  `captured` is a ghost
annotation recording the wall-clock time at which cap.read produced the
buffer: the Python frame object carries no timestamp, queue items are
bare (device_id, frame) pairs, and no embedded operation below ever
reads this field — it exists only so that capture-time age is
expressible in statements. -/
structure Frame where
  shape : List Nat
  tag : Nat
  captured : ℚ
deriving DecidableEq

/-- Observable side effects of a capture worker: sleeps (time.sleep /
stop_event.wait) and device release (cap.release via
_release_camera_resources). -/
inductive Effect where
  | sleep (d : ℚ)
  | release
deriving DecidableEq

/-! ### Capture worker embedding (threads.py: BaseCameraThread) -/

/-- One event observed by the read loop of _process_camera_stream: either
a cap.read() at wall-clock time `now` returning a frame or a failure
(ret = False), or the loop observing that stop_event has been set. -/
inductive StreamEv where
  | read (now : ℚ) (res : Option Frame)
  | stopObserved
deriving DecidableEq

/-- How a streaming session ended: `broke` = read failure at elapsed
time ≥ min_uptime (the `break`), `stopped` = stop_event observed,
`stillStreaming` = observation cut while the loop is still running. -/
inductive StreamEnd where
  | broke
  | stopped
  | stillStreaming
deriving DecidableEq

/-- The mutable state of one BaseCameraThread, plus instrumentation:
`opens` counts open attempts, `enteredStreaming` records whether
_process_camera_stream was ever entered, `pushed` records every
frame_queue.put, `effects` records sleeps and releases in order. -/
structure RunState where
  retry_count : Nat
  stopFlag : Bool
  pushed : List (Nat × Frame)
  effects : List Effect
  opens : Nat
  enteredStreaming : Bool
  last_frame_time : ℚ
deriving DecidableEq

def initRun : RunState :=
  { retry_count := 0, stopFlag := false, pushed := [], effects := [],
    opens := 0, enteredStreaming := false, last_frame_time := 0 }

/-- The `while not self.stop_event.is_set():` read loop of
BaseCameraThread._process_camera_stream (threads.py lines 145-155):
a successful read pushes (camera_id, frame) and records
last_frame_time; a failed read before min_uptime sleeps 0.1 and
retries; a failed read at or after min_uptime breaks. -/
def streamLoop (min_uptime start_time : ℚ) (camera_id : Nat) :
    List StreamEv → RunState → RunState × StreamEnd
  | [], st => (st, StreamEnd.stillStreaming)
  | StreamEv.stopObserved :: _, st => ({ st with stopFlag := true }, StreamEnd.stopped)
  | StreamEv.read now res :: rest, st =>
    match res with
    | some f =>
      streamLoop min_uptime start_time camera_id rest
        { st with pushed := st.pushed ++ [(camera_id, f)], last_frame_time := now }
    | none =>
      if now - start_time < min_uptime then
        streamLoop min_uptime start_time camera_id rest
          { st with effects := st.effects ++ [Effect.sleep (1/10)] }
      else
        (st, StreamEnd.broke)

/-- BaseCameraThread._process_camera_stream (threads.py lines 135-155):
sets retry_count to 0 on entry (immediately after a successful open),
then runs the read loop. -/
def process_camera_stream (min_uptime start_time : ℚ) (camera_id : Nat)
    (evs : List StreamEv) (st : RunState) : RunState × StreamEnd :=
  streamLoop min_uptime start_time camera_id evs
    { st with retry_count := 0, enteredStreaming := true }

/-- BaseCameraThread._handle_camera_error (threads.py lines 157-168):
increments retry_count and, if still below max_retries, sleeps 2.0
before the next open attempt. -/
def handle_camera_error (max_retries : Nat) (st : RunState) : RunState :=
  let st1 := { st with retry_count := st.retry_count + 1 }
  if st1.retry_count < max_retries then
    { st1 with effects := st1.effects ++ [Effect.sleep 2] }
  else st1

/-- One iteration's worth of collaborator behaviour for
BaseCameraThread.run: either every backend fails to open the device, or
the open succeeds and the session sees the given read events, the
session's start_time being time.time() at entry. -/
inductive Attempt where
  | openFail
  | openOk (start_time : ℚ) (evs : List StreamEv)
deriving DecidableEq

/-- BaseCameraThread.run (threads.py lines 109-122): loops while
stop_event is unset and retry_count < max_retries.  A failed open raises
RuntimeError, handled by _handle_camera_error; the finally block
releases the device only when it was opened (cap is None after a failed
open, so no release effect is recorded then). -/
def runLoop (min_uptime : ℚ) (max_retries camera_id : Nat) :
    List Attempt → RunState → RunState
  | [], st => st
  | a :: rest, st =>
    if !st.stopFlag && decide (st.retry_count < max_retries) then
      match a with
      | Attempt.openFail =>
        let st1 := { st with opens := st.opens + 1 }
        let st2 := handle_camera_error max_retries st1
        runLoop min_uptime max_retries camera_id rest st2
      | Attempt.openOk start_time evs =>
        let st1 := { st with opens := st.opens + 1 }
        let out := process_camera_stream min_uptime start_time camera_id evs st1
        let st2 := { out.1 with effects := out.1.effects ++ [Effect.release] }
        match out.2 with
        | StreamEnd.stillStreaming => st2
        | _ => runLoop min_uptime max_retries camera_id rest st2
    else st

theorem runLoop_halt (min_uptime : ℚ) (max_retries camera_id : Nat)
    (l : List Attempt) (st : RunState)
    (h : (!st.stopFlag && decide (st.retry_count < max_retries)) = false) :
    runLoop min_uptime max_retries camera_id l st = st := by
  cases l with
  | nil => rfl
  | cons a rest => simp [runLoop, h]

theorem streamLoop_retry_count (min_uptime start_time : ℚ) (camera_id : Nat)
    (evs : List StreamEv) (st : RunState) :
    (streamLoop min_uptime start_time camera_id evs st).1.retry_count = st.retry_count := by
  induction evs generalizing st with
  | nil => rfl
  | cons e rest ih =>
    cases e with
    | stopObserved => simp [streamLoop]
    | read now res =>
      cases res with
      | some f => simp [streamLoop]; exact ih _
      | none =>
        by_cases h : now - start_time < min_uptime
        · simp [streamLoop, h]; exact ih _
        · simp [streamLoop, h]

/-! ### Frame drain embedding (managers.py: BaseCameraManager.process_frames) -/

/-- The per-device record held in BaseCameraManager.cameras that the
drain reads and writes: the cached last frame and its last-update
timestamp (the worker handle and stop event are modelled separately in
the lifecycle transition system below). -/
structure CamRec where
  last_frame : Option Frame
  last_update : ℚ
deriving DecidableEq

/-- State threaded through one process_frames drain: the local `frames`
dict being built, the shared camera table, and the log of frame-callback
invocations. -/
structure DrainState where
  frames : List (Nat × Frame)
  cameras : List (Nat × CamRec)
  calls : List (Nat × Frame)
deriving DecidableEq

/-- BaseCameraManager._update_camera_state (managers.py lines 266-277):
writes last_frame and last_update (= time.time(), here `now`) into the
camera record, then invokes the frame callback.  A missing dev_id raises
KeyError before any mutation; a callback raising (oracle `cbThrows`)
raises after the cache update and after the invocation.  Python
exceptions are modelled by `Except`, the error carrying the state at the
point the exception escapes. -/
def update_camera_state (cbThrows : Nat → Bool) (now : ℚ) (dev_id : Nat)
    (frame : Frame) (st : DrainState) : Except DrainState DrainState :=
  match lookupA st.cameras dev_id with
  | none => Except.error st
  | some _ =>
    let st1 := { st with cameras := setA st.cameras dev_id ⟨some frame, now⟩ }
    let st2 := { st1 with calls := st1.calls ++ [(dev_id, frame)] }
    if cbThrows dev_id then Except.error st2 else Except.ok st2

/-- The `while not self.frame_queue.empty():` drain loop of
BaseCameraManager.process_frames (managers.py lines 246-264).  Each
queue item is (dev_id, Optional frame); a None frame or a frame whose
shape is not 3-dimensional is skipped.  The inner try only catches
queue.Empty, so an exception from _update_camera_state propagates,
aborting the drain; the error carries the state at abort and the items
still queued. -/
def drainLoop (cbThrows : Nat → Bool) (now : ℚ) :
    List (Nat × Option Frame) → DrainState →
      Except (DrainState × List (Nat × Option Frame)) DrainState
  | [], st => Except.ok st
  | (dev_id, res) :: rest, st =>
    match res with
    | none => drainLoop cbThrows now rest st
    | some f =>
      if f.shape.length = 3 then
        let st1 := { st with frames := setA st.frames dev_id f }
        match update_camera_state cbThrows now dev_id f st1 with
        | Except.error st2 => Except.error (st2, rest)
        | Except.ok st2 => drainLoop cbThrows now rest st2
      else drainLoop cbThrows now rest st

/-- BaseCameraManager._add_cached_frames (managers.py lines 279-292):
for every camera record not already in the frame map whose cached frame
exists and is younger than 5.0 seconds (strict), synthesises the cached
frame into the map. -/
def add_cached_frames (now : ℚ) (cameras : List (Nat × CamRec))
    (frames : List (Nat × Frame)) : List (Nat × Frame) :=
  cameras.foldl
    (fun fs p =>
      match p.2.last_frame with
      | some lf =>
        if (lookupA fs p.1).isNone && decide (now - p.2.last_update < 5) then
          setA fs p.1 lf
        else fs
      | none => fs)
    frames

/-- BaseCameraManager.process_frames (managers.py lines 246-264): drain
the queue, then merge cached frames; returns the frame map and the final
state, or the propagated exception. -/
def process_frames (cbThrows : Nat → Bool) (now : ℚ)
    (queued : List (Nat × Option Frame)) (cameras : List (Nat × CamRec)) :
    Except (DrainState × List (Nat × Option Frame)) (List (Nat × Frame) × DrainState) :=
  match drainLoop cbThrows now queued ⟨[], cameras, []⟩ with
  | Except.error e => Except.error e
  | Except.ok st => Except.ok (add_cached_frames now st.cameras st.frames, st)

/-- Drain invariant: every entry of the local frame map corresponds to a
camera record refreshed at this tick's time, and the map's keys are
duplicate-free. -/
def FramesFresh (now : ℚ) (st : DrainState) : Prop :=
  (keys st.frames).Nodup ∧
    ∀ p ∈ st.frames, ∃ rec, (p.1, rec) ∈ st.cameras ∧
      rec.last_frame = some p.2 ∧ rec.last_update = now

theorem drainLoop_fresh (cbThrows : Nat → Bool) (now : ℚ)
    (queued : List (Nat × Option Frame)) (st st' : DrainState)
    (hinv : FramesFresh now st)
    (h : drainLoop cbThrows now queued st = Except.ok st') :
    FramesFresh now st' := by
  induction queued generalizing st with
  | nil =>
    simp only [drainLoop, Except.ok.injEq] at h
    exact h ▸ hinv
  | cons item rest ih =>
    obtain ⟨dev_id, res⟩ := item
    cases res with
    | none => exact ih st hinv h
    | some f =>
      by_cases hs : f.shape.length = 3
      · simp only [drainLoop, if_pos hs] at h
        set st1 : DrainState := { st with frames := setA st.frames dev_id f } with hst1
        rcases hu : update_camera_state cbThrows now dev_id f st1 with st2 | st2
        · rw [hu] at h
          exact absurd h (by simp)
        · rw [hu] at h
          refine ih st2 ?_ h
          unfold update_camera_state at hu
          rcases hl : lookupA st1.cameras dev_id with _ | rec0
          · rw [hl] at hu
            exact absurd hu (by simp)
          · rw [hl] at hu
            simp only at hu
            by_cases hcb : cbThrows dev_id
            · simp [hcb] at hu
            · simp only [hcb, if_neg, Bool.false_eq_true, not_false_eq_true, if_false] at hu
              have hst2 : st2 = { st1 with
                  cameras := setA st1.cameras dev_id ⟨some f, now⟩,
                  calls := st1.calls ++ [(dev_id, f)] } := by
                rw [← Except.ok.injEq]
                exact hu.symm
              subst hst2
              constructor
              · exact keys_setA_nodup hinv.1
              · intro p hp
                rcases mem_setA_nodup hinv.1 hp with h1 | ⟨h1, h2⟩
                · refine ⟨⟨some f, now⟩, ?_, by simp [h1], by simp⟩
                  have : p.1 = dev_id := by rw [h1]
                  rw [this]
                  exact mem_setA_self _ _ _
                · obtain ⟨rec, hrec, hlf, hlu⟩ := hinv.2 p h1
                  exact ⟨rec, mem_setA_of_ne hrec h2, hlf, hlu⟩
      · simp only [drainLoop, if_neg hs] at h
        exact ih st hinv h

theorem mem_add_cached (now : ℚ) (cameras : List (Nat × CamRec))
    (frames : List (Nat × Frame)) (p : Nat × Frame)
    (h : p ∈ add_cached_frames now cameras frames) :
    p ∈ frames ∨ ∃ rec, (p.1, rec) ∈ cameras ∧
      rec.last_frame = some p.2 ∧ now - rec.last_update < 5 := by
  induction cameras generalizing frames with
  | nil => left; exact h
  | cons q rest ih =>
    simp only [add_cached_frames, List.foldl_cons] at h
    rcases hlf : q.2.last_frame with _ | lf
    · rw [hlf] at h
      rcases ih frames h with h1 | ⟨rec, hrec, hr1, hr2⟩
      · left; exact h1
      · right; exact ⟨rec, List.mem_cons_of_mem _ hrec, hr1, hr2⟩
    · simp only [hlf] at h
      by_cases hc : (lookupA frames q.1).isNone && decide (now - q.2.last_update < 5)
      · rw [if_pos hc] at h
        rcases ih _ h with h1 | ⟨rec, hrec, hr1, hr2⟩
        · rcases mem_setA_weak h1 with h2 | h2
          · right
            refine ⟨q.2, ?_, ?_, ?_⟩
            · have : p.1 = q.1 := by rw [h2]
              rw [this]
              exact (Prod.mk.eta (p := q)) ▸ List.mem_cons_self _ _
            · rw [hlf]
              have : p.2 = lf := by rw [h2]
              rw [this]
            · have := (Bool.and_eq_true _ _).mp hc
              exact of_decide_eq_true this.2
          · left; exact h2
        · right; exact ⟨rec, List.mem_cons_of_mem _ hrec, hr1, hr2⟩
      · rw [if_neg hc] at h
        rcases ih frames h with h1 | ⟨rec, hrec, hr1, hr2⟩
        · left; exact h1
        · right; exact ⟨rec, List.mem_cons_of_mem _ hrec, hr1, hr2⟩

/-! ### Reconciliation predicates (managers.py / manager.py) -/

/-- BaseCameraManager._should_remove_camera (managers.py lines 161-174),
inherited unchanged by both USBCameraManager and IPCameraManager:
remove only if the id is absent from the discovered list AND the worker
thread is no longer alive. -/
def should_remove_camera (current_devices : List Nat) (alive : Bool)
    (dev_id : Nat) : Bool :=
  !(current_devices.contains dev_id) && !alive

/-- IPCameraManager._get_available_devices (managers.py lines 655-661):
discovery for the fixed-list class always reports every configured RTSP
url index. -/
def ip_available_devices (rtsp_urls : List String) : List Nat :=
  List.range rtsp_urls.length

/-- CameraManager._should_remove_camera (manager.py lines 292-299): the
monolithic manager special-cases IP cameras, removing a record as soon
as its worker thread is no longer alive. -/
def should_remove_camera_cm (use_ip_cameras : Bool) (current_devices : List Nat)
    (alive : Bool) (dev_id : Nat) : Bool :=
  if use_ip_cameras then !alive
  else !(current_devices.contains dev_id) && !alive

/-! ### Shutdown embedding (managers.py: stop, _remove_camera,
_cleanup_gui_resources) -/

/-- The manager state touched by stop(): the camera table (dev_id ↦
source label), the set of open GUI windows, the show_gui flag and the
manager-wide stop event. -/
structure MgrUI where
  show_gui : Bool
  cameras : List (Nat × String)
  active_windows : List String
  stop_event : Bool
deriving DecidableEq

/-- BaseCameraManager._get_window_title (managers.py lines 231-244). -/
def get_window_title (camera_type : String) (cams : List (Nat × String))
    (dev_id : Nat) : String :=
  let source := match lookupA cams dev_id with
    | some s => s
    | none => toString dev_id
  "Camera " ++ toString dev_id ++ " (" ++ camera_type ++ "): " ++ source

/-- BaseCameraManager._remove_camera (managers.py lines 203-229),
parameterised by oracles: `joinTimesOut dev` is whether
thread.join(timeout=1.0) returns with the thread still alive (join never
raises either way), and `destroyRaises title` is whether
cv2.destroyWindow raises.  A raising destroyWindow is caught by the
except branch, skipping the active_windows.remove; the finally branch
deletes the record unconditionally. -/
def remove_camera_ui (joinTimesOut : Nat → Bool) (destroyRaises : String → Bool)
    (camera_type : String) (dev_id : Nat) (s : MgrUI) : MgrUI :=
  match lookupA s.cameras dev_id with
  | none => s
  | some _ =>
    let deleted := { s with cameras := eraseKey s.cameras dev_id }
    let _ := joinTimesOut dev_id
    if s.show_gui then
      let title := get_window_title camera_type s.cameras dev_id
      if s.active_windows.contains title then
        if destroyRaises title then deleted
        else { deleted with active_windows := s.active_windows.filter (· != title) }
      else deleted
    else deleted

/-- BaseCameraManager._cleanup_gui_resources (managers.py lines 122-133):
when show_gui, destroys each remaining window (raises ignored) and then
unconditionally clears active_windows; otherwise returns early. -/
def cleanup_gui_resources (s : MgrUI) : MgrUI :=
  if s.show_gui then { s with active_windows := [] } else s

/-- BaseCameraManager.stop (managers.py lines 110-133): sets the stop
event, removes every camera in the table snapshot, joins the monitor
thread (no state effect) and cleans up GUI resources. -/
def stop_ui (joinTimesOut : Nat → Bool) (destroyRaises : String → Bool)
    (camera_type : String) (s : MgrUI) : MgrUI :=
  let s1 := { s with stop_event := true }
  let s2 := (keys s1.cameras).foldl
    (fun acc d => remove_camera_ui joinTimesOut destroyRaises camera_type d acc) s1
  cleanup_gui_resources s2

theorem remove_camera_ui_cameras_sub (joinTimesOut : Nat → Bool)
    (destroyRaises : String → Bool) (camera_type : String) (dev_id : Nat)
    (s : MgrUI) (p : Nat × String)
    (h : p ∈ (remove_camera_ui joinTimesOut destroyRaises camera_type dev_id s).cameras) :
    p ∈ s.cameras ∧ (lookupA s.cameras dev_id = none ∨ p.1 ≠ dev_id) := by
  unfold remove_camera_ui at h
  rcases hl : lookupA s.cameras dev_id with _ | src
  · rw [hl] at h
    exact ⟨h, Or.inl rfl⟩
  · rw [hl] at h
    simp only at h
    have hdel : p ∈ eraseKey s.cameras dev_id := by
      by_cases hg : s.show_gui
      · simp only [if_pos hg] at h
        by_cases hc : (s.active_windows.contains
            (get_window_title camera_type s.cameras dev_id)) = true
        · rw [if_pos hc] at h
          by_cases hd : destroyRaises (get_window_title camera_type s.cameras dev_id)
          · rw [if_pos hd] at h; exact h
          · rw [if_neg hd] at h; exact h
        · rw [if_neg (by simpa using hc)] at h; exact h
      · simp only [if_neg hg] at h; exact h
    have := mem_eraseKey.mp hdel
    exact ⟨this.1, Or.inr this.2⟩

theorem remove_camera_ui_flags (joinTimesOut : Nat → Bool)
    (destroyRaises : String → Bool) (camera_type : String) (dev_id : Nat)
    (s : MgrUI) :
    (remove_camera_ui joinTimesOut destroyRaises camera_type dev_id s).show_gui
        = s.show_gui ∧
      (s.show_gui = false →
        (remove_camera_ui joinTimesOut destroyRaises camera_type dev_id s).active_windows
          = s.active_windows) := by
  unfold remove_camera_ui
  rcases hl : lookupA s.cameras dev_id with _ | src
  · exact ⟨rfl, fun _ => rfl⟩
  · constructor
    · by_cases hg : s.show_gui
      · simp only [if_pos hg]
        by_cases hc : (s.active_windows.contains
            (get_window_title camera_type s.cameras dev_id)) = true
        · rw [if_pos hc]
          by_cases hd : destroyRaises (get_window_title camera_type s.cameras dev_id)
          · rw [if_pos hd]
          · rw [if_neg hd]
        · rw [if_neg (by simpa using hc)]
      · simp only [if_neg hg]
    · intro hg
      simp only [hg, Bool.false_eq_true, if_false]

theorem fold_remove_cameras (joinTimesOut : Nat → Bool)
    (destroyRaises : String → Bool) (camera_type : String) :
    ∀ (l : List Nat) (s : MgrUI) (p : Nat × String),
      p ∈ (l.foldl
        (fun acc d => remove_camera_ui joinTimesOut destroyRaises camera_type d acc)
        s).cameras →
      p ∈ s.cameras ∧ p.1 ∉ l := by
  intro l
  induction l with
  | nil => intro s p h; exact ⟨h, by simp⟩
  | cons d rest ih =>
    intro s p h
    rw [List.foldl_cons] at h
    obtain ⟨h1, h2⟩ := ih _ p h
    obtain ⟨h3, h4⟩ := remove_camera_ui_cameras_sub joinTimesOut destroyRaises
      camera_type d s p h1
    have hne : p.1 ≠ d := by
      rcases h4 with h4 | h4
      · intro he
        have : (d, p.2) ∈ s.cameras := by
          have : p = (d, p.2) := by
            rw [← he]
          exact this ▸ h3
        exact lookupA_none_not_mem h4 this
      · exact h4
    refine ⟨h3, ?_⟩
    simp only [List.mem_cons, not_or]
    exact ⟨hne, h2⟩

theorem fold_remove_flags (joinTimesOut : Nat → Bool)
    (destroyRaises : String → Bool) (camera_type : String) :
    ∀ (l : List Nat) (s : MgrUI),
      (l.foldl
        (fun acc d => remove_camera_ui joinTimesOut destroyRaises camera_type d acc)
        s).show_gui = s.show_gui ∧
      (s.show_gui = false →
        (l.foldl
          (fun acc d => remove_camera_ui joinTimesOut destroyRaises camera_type d acc)
          s).active_windows = s.active_windows) := by
  intro l
  induction l with
  | nil => intro s; exact ⟨rfl, fun _ => rfl⟩
  | cons d rest ih =>
    intro s
    rw [List.foldl_cons]
    obtain ⟨f1, f2⟩ := remove_camera_ui_flags joinTimesOut destroyRaises camera_type d s
    obtain ⟨g1, g2⟩ := ih (remove_camera_ui joinTimesOut destroyRaises camera_type d s)
    refine ⟨g1.trans f1, ?_⟩
    intro hg
    rw [g2 (f1.trans hg ▸ rfl), f2 hg]

/-- Claim C10: after stop() returns, the camera table and the
active-window set are both empty, for every join/destroyWindow outcome
(records are deleted in the finally branch of _remove_camera, and
_cleanup_gui_resources clears the window set unconditionally when the
GUI is enabled).  The hypothesis reflects that windows only ever get
created when show_gui is set. -/
theorem cleanup_gui_cameras (t : MgrUI) :
    (cleanup_gui_resources t).cameras = t.cameras := by
  unfold cleanup_gui_resources
  split <;> rfl

theorem cleanup_gui_windows (t : MgrUI)
    (h : t.show_gui = false → t.active_windows = []) :
    (cleanup_gui_resources t).active_windows = [] := by
  unfold cleanup_gui_resources
  by_cases hg : t.show_gui
  · rw [if_pos hg]
  · rw [if_neg hg]
    exact h (Bool.not_eq_true _ ▸ hg)

theorem stop_clears_all (joinTimesOut : Nat → Bool) (destroyRaises : String → Bool)
    (camera_type : String) (s : MgrUI)
    (hw : s.show_gui = false → s.active_windows = []) :
    (stop_ui joinTimesOut destroyRaises camera_type s).cameras = [] ∧
      (stop_ui joinTimesOut destroyRaises camera_type s).active_windows = [] := by
  have hgoal : stop_ui joinTimesOut destroyRaises camera_type s =
      cleanup_gui_resources
        ((keys ({ s with stop_event := true } : MgrUI).cameras).foldl
          (fun acc d => remove_camera_ui joinTimesOut destroyRaises camera_type d acc)
          { s with stop_event := true }) := rfl
  obtain ⟨f1, f2⟩ := fold_remove_flags joinTimesOut destroyRaises camera_type
    (keys ({ s with stop_event := true } : MgrUI).cameras)
    { s with stop_event := true }
  have hcam : ((keys ({ s with stop_event := true } : MgrUI).cameras).foldl
      (fun acc d => remove_camera_ui joinTimesOut destroyRaises camera_type d acc)
      { s with stop_event := true }).cameras = [] := by
    rw [List.eq_nil_iff_forall_not_mem]
    intro p hp
    obtain ⟨h1, h2⟩ := fold_remove_cameras joinTimesOut destroyRaises camera_type
      (keys ({ s with stop_event := true } : MgrUI).cameras)
      { s with stop_event := true } p hp
    exact h2 (mem_keys_of_mem h1)
  rw [hgoal, cleanup_gui_cameras]
  refine ⟨hcam, ?_⟩
  apply cleanup_gui_windows
  intro hgf
  have hsf : s.show_gui = false := by
    rw [f1] at hgf
    exact hgf
  rw [f2 hsf]
  exact hw hsf

/-- Closed witness for stop_clears_all: a GUI manager holding two
cameras and one window, whose joins time out and whose destroyWindow
raises, still ends with empty tables. -/
theorem stop_clears_all_witness :
    (stop_ui (fun _ => true) (fun _ => true) "IP"
        ⟨true, [(0, "rtsp-a"), (1, "rtsp-b")], ["Camera 0 (IP): rtsp-a"], false⟩).cameras
        = [] ∧
      (stop_ui (fun _ => true) (fun _ => true) "IP"
        ⟨true, [(0, "rtsp-a"), (1, "rtsp-b")], ["Camera 0 (IP): rtsp-a"], false⟩).active_windows
        = [] :=
  stop_clears_all (fun _ => true) (fun _ => true) "IP"
    ⟨true, [(0, "rtsp-a"), (1, "rtsp-b")], ["Camera 0 (IP): rtsp-a"], false⟩
    (by intro h; exact absurd h (by decide))

/-! ### Manager lifecycle transition system (managers.py:
_monitor_cameras, _update_camera_connections, _add_camera,
_remove_camera, stop; threads die asynchronously).

A monitor tick is modelled as two events: `tick_start` (the loop-top
stop_event check followed by the unlocked — possibly multi-second —
discovery call, capturing the discovered list) and `tick_apply` (the
add/remove phase under the lock).  stop() runs on the main thread
holding no lock, so it may fire between the two: the straddling-tick
interleaving.  Before any stop, the camera table is mutated only by the
single, serialized monitor thread under the lock, so tick_apply's
atomicity is faithful for pre-stop states.  Worker threads die
asynchronously at any point, join outcomes are arbitrary, and threads
carry unique handles so that an abandoned worker (join timed out during
stop, e.g. wedged in a blocking frame_queue.put or cap.read) remains
visible. -/

/-- One worker thread: the device it captures and whether its execution
context is still running. -/
structure ThInfo where
  dev : Nat
  alive : Bool
deriving DecidableEq

/-- Manager lifecycle state: the camera table (dev_id ↦ thread handle),
every thread ever started (handle ↦ info), a fresh-handle counter, the
manager-wide stop event, and the in-flight monitor tick, if any: a tick
that has passed its stop_event check and finished discovery (capturing
the policy flag and the discovered list) but whose locked mutation phase
has not yet run. -/
structure SysState where
  cameras : List (Nat × Nat)
  threads : List (Nat × ThInfo)
  nextTid : Nat
  stopped : Bool
  pending : Option (Bool × List Nat)
deriving DecidableEq

def initSys : SysState := ⟨[], [], 0, false, none⟩

/-- BaseCameraManager._add_camera (managers.py lines 176-201): a no-op
when the device already has a record; otherwise creates the record and
starts a fresh worker thread. -/
def add_camera (dev_id : Nat) (s : SysState) : SysState :=
  if (lookupA s.cameras dev_id).isSome then s
  else
    { cameras := s.cameras ++ [(dev_id, s.nextTid)]
      threads := s.threads ++ [(s.nextTid, ⟨dev_id, true⟩)]
      nextTid := s.nextTid + 1
      stopped := s.stopped
      pending := s.pending }

def setDead (tid : Nat) (l : List (Nat × ThInfo)) : List (Nat × ThInfo) :=
  l.map (fun q => if q.1 = tid then (q.1, ⟨q.2.dev, false⟩) else q)

/-- thread.is_alive() for the thread handle recorded for a device. -/
def camThreadAlive (s : SysState) (dev_id : Nat) : Bool :=
  match lookupA s.cameras dev_id with
  | some tid =>
    match lookupA s.threads tid with
    | some ti => ti.alive
    | none => false
  | none => false

/-- BaseCameraManager._remove_camera (managers.py lines 203-229): sets
the worker's stop event, joins with timeout 1.0 (when `joinOk` the
thread finishes within the timeout, otherwise it is abandoned still
running), and deletes the record in the finally branch either way. -/
def remove_camera (joinOk : Bool) (dev_id : Nat) (s : SysState) : SysState :=
  match lookupA s.cameras dev_id with
  | none => s
  | some tid =>
    { cameras := eraseKey s.cameras dev_id
      threads := if joinOk then setDead tid s.threads else s.threads
      nextTid := s.nextTid
      stopped := s.stopped
      pending := s.pending }

/-- The removal predicate used during a tick: _should_remove_camera of
managers.py when `useIP` is false, and the IP branch of manager.py's
CameraManager._should_remove_camera when `useIP` is true.  Both demand
that the recorded worker thread is no longer alive. -/
def should_remove_sys (useIP : Bool) (discovered : List Nat) (s : SysState)
    (dev_id : Nat) : Bool :=
  if useIP then !(camThreadAlive s dev_id)
  else !(discovered.contains dev_id) && !(camThreadAlive s dev_id)

/-- First half of a monitor tick (managers.py lines 135-143): the
monitor thread observes the stop event unset, then runs the unlocked
_get_available_devices call, capturing the discovered list for the
mutation phase.  A no-op if the stop event is already set (the loop
exits) or a tick is already in flight (the monitor is one thread). -/
def tick_start (useIP : Bool) (discovered : List Nat) (s : SysState) : SysState :=
  if s.stopped then s
  else
    match s.pending with
    | some _ => s
    | none => { s with pending := some (useIP, discovered) }

/-- Second half of a monitor tick (managers.py lines 140-159,
_update_camera_connections under the lock): add every discovered device
without a record, then remove every tabled device the policy marks (a
marked device's thread is not alive, so its join succeeds trivially).
The stop event is NOT re-checked here — the check happened in
tick_start, before discovery. -/
def tick_apply (s : SysState) : SysState :=
  match s.pending with
  | none => s
  | some (useIP, discovered) =>
    let s0 : SysState := { s with pending := none }
    let s1 := discovered.foldl (fun acc d => add_camera d acc) s0
    (keys s1.cameras).foldl
      (fun acc d =>
        if should_remove_sys useIP discovered acc d then remove_camera true d acc
        else acc)
      s1

/-- A worker thread's run method returns on its own (retries exhausted,
or stop event observed). -/
def dieThread (tid : Nat) (s : SysState) : SysState :=
  { s with threads := setDead tid s.threads }

/-- BaseCameraManager.stop (managers.py lines 110-133): sets the stop
event, then removes every camera in the table snapshot with a per-device
join outcome. -/
def stop_all (joinOk : Nat → Bool) (s : SysState) : SysState :=
  let s1 : SysState := { s with stopped := true }
  (keys s1.cameras).foldl (fun acc d => remove_camera (joinOk d) d acc) s1

/-- Executions of the camera manager: any interleaving of the two tick
halves (with arbitrary discovered device lists and either removal
policy), spontaneous worker-thread terminations, and stop() calls with
arbitrary join outcomes — in particular a stop() may fire between a
tick's stop check and its mutation phase. -/
inductive Reach : SysState → Prop where
  | init : Reach initSys
  | tickStart (useIP : Bool) (discovered : List Nat) {s : SysState} :
      Reach s → Reach (tick_start useIP discovered s)
  | tickApply {s : SysState} : Reach s → Reach (tick_apply s)
  | die (tid : Nat) {s : SysState} : Reach s → Reach (dieThread tid s)
  | stop (joinOk : Nat → Bool) {s : SysState} :
      Reach s → Reach (stop_all joinOk s)

/-- The number of live worker threads for one device in a thread list. -/
def countAlive (l : List (Nat × ThInfo)) (dev_id : Nat) : Nat :=
  (l.filter (fun q => decide (q.2.dev = dev_id) && q.2.alive)).length

/-- The number of live capture worker threads for one device. -/
def aliveCount (s : SysState) (dev_id : Nat) : Nat :=
  countAlive s.threads dev_id

/-- Inductive invariant of the lifecycle system.  The one-worker bound
is guarded on the stop event: once stop() has run, a straddling tick's
mutation phase can add a second live worker next to an abandoned one. -/
structure SysInv (s : SysState) : Prop where
  tidBound : ∀ q ∈ s.threads, q.1 < s.nextTid
  tidNodup : (keys s.threads).Nodup
  camNodup : (keys s.cameras).Nodup
  aliveCam : ∀ q ∈ s.threads, q.2.alive = true → s.stopped = false →
    (q.2.dev, q.1) ∈ s.cameras
  aliveOne : s.stopped = false → ∀ dev_id, aliveCount s dev_id ≤ 1

theorem exists_of_mem_keys {α : Type} {l : List (Nat × α)} {k : Nat}
    (h : k ∈ keys l) : ∃ v, (k, v) ∈ l := by
  simp only [keys, List.mem_map] at h
  obtain ⟨p, hp, hk⟩ := h
  exact ⟨p.2, by rw [← hk]; exact (Prod.mk.eta (p := p)) ▸ hp⟩

theorem keys_setDead (tid : Nat) (l : List (Nat × ThInfo)) :
    keys (setDead tid l) = keys l := by
  induction l with
  | nil => rfl
  | cons q rest ih =>
    by_cases hq : q.1 = tid
    · simp [setDead, keys, hq] at ih ⊢
      exact ih
    · simp [setDead, keys, hq] at ih ⊢
      exact ih

theorem mem_setDead {tid : Nat} {l : List (Nat × ThInfo)} {q : Nat × ThInfo}
    (h : q ∈ setDead tid l) :
    ∃ q0 ∈ l, q.1 = q0.1 ∧ q.2.dev = q0.2.dev ∧
      (q.2.alive = true → q = q0 ∧ q.1 ≠ tid) := by
  simp only [setDead, List.mem_map] at h
  obtain ⟨q0, hq0, hq⟩ := h
  by_cases ht : q0.1 = tid
  · rw [if_pos ht] at hq
    refine ⟨q0, hq0, by rw [← hq], by rw [← hq], ?_⟩
    intro halive
    rw [← hq] at halive
    simp at halive
  · rw [if_neg ht] at hq
    exact ⟨q0, hq0, by rw [hq], by rw [hq], fun _ => ⟨hq.symm, hq ▸ ht⟩⟩

theorem countAlive_setDead_le (tid : Nat) (l : List (Nat × ThInfo)) (dev_id : Nat) :
    countAlive (setDead tid l) dev_id ≤ countAlive l dev_id := by
  induction l with
  | nil => exact Nat.le_refl _
  | cons q rest ih =>
    by_cases ht : q.1 = tid
    · simp only [setDead, List.map_cons, if_pos ht] at ih ⊢
      unfold countAlive at ih ⊢
      simp only [List.filter_cons]
      have hpred : (decide ((⟨q.1, ⟨q.2.dev, false⟩⟩ : Nat × ThInfo).2.dev = dev_id)
          && (⟨q.1, ⟨q.2.dev, false⟩⟩ : Nat × ThInfo).2.alive) = false := by
        simp
      rw [hpred]
      simp only [Bool.false_eq_true, if_false]
      by_cases hq : (decide (q.2.dev = dev_id) && q.2.alive) = true
      · rw [if_pos hq]
        simp only [List.length_cons]
        exact Nat.le_succ_of_le ih
      · rw [if_neg hq]
        exact ih
    · simp only [setDead, List.map_cons, if_neg ht] at ih ⊢
      unfold countAlive at ih ⊢
      simp only [List.filter_cons]
      by_cases hq : (decide (q.2.dev = dev_id) && q.2.alive) = true
      · rw [if_pos hq, if_pos hq]
        simp only [List.length_cons]
        exact Nat.succ_le_succ ih
      · rw [if_neg hq, if_neg hq]
        exact ih

theorem countAlive_append (l1 l2 : List (Nat × ThInfo)) (dev_id : Nat) :
    countAlive (l1 ++ l2) dev_id = countAlive l1 dev_id + countAlive l2 dev_id := by
  unfold countAlive
  rw [List.filter_append, List.length_append]

theorem add_camera_stopped (dev_id : Nat) (s : SysState) :
    (add_camera dev_id s).stopped = s.stopped := by
  unfold add_camera
  split <;> rfl

theorem remove_camera_stopped (joinOk : Bool) (dev_id : Nat) (s : SysState) :
    (remove_camera joinOk dev_id s).stopped = s.stopped := by
  unfold remove_camera
  rcases lookupA s.cameras dev_id with _ | tid <;> rfl

theorem add_pres (dev_id : Nat) (s : SysState) (hInv : SysInv s) :
    SysInv (add_camera dev_id s) := by
  unfold add_camera
  by_cases hg : (lookupA s.cameras dev_id).isSome
  · rw [if_pos hg]
    exact hInv
  · rw [if_neg hg]
    have hnone : lookupA s.cameras dev_id = none :=
      Option.not_isSome_iff_eq_none.mp hg
    have hfresh : s.nextTid ∉ keys s.threads := by
      intro hmem
      obtain ⟨v, hv⟩ := exists_of_mem_keys hmem
      exact absurd (hInv.tidBound _ hv) (by simp)
    have hdevfresh : dev_id ∉ keys s.cameras := by
      intro hmem
      obtain ⟨v, hv⟩ := exists_of_mem_keys hmem
      exact lookupA_none_not_mem hnone hv
    have hzero : s.stopped = false → countAlive s.threads dev_id = 0 := by
      intro hstop
      unfold countAlive
      rw [List.length_eq_zero]
      rw [List.filter_eq_nil_iff]
      intro q hq
      intro hpred
      rw [Bool.and_eq_true] at hpred
      have hdev : q.2.dev = dev_id := of_decide_eq_true hpred.1
      have hrec := hInv.aliveCam q hq hpred.2 hstop
      rw [hdev] at hrec
      exact lookupA_none_not_mem hnone hrec
    constructor
    · intro q hq
      rcases List.mem_append.mp hq with h1 | h1
      · exact Nat.lt_succ_of_lt (hInv.tidBound q h1)
      · simp at h1
        rw [h1]
        exact Nat.lt_succ_self _
    · simp only [keys, List.map_append, List.map_cons, List.map_nil]
      rw [List.nodup_append]
      exact ⟨hInv.tidNodup, List.nodup_singleton _,
        by intro a ha hb; simp at hb; exact hfresh (hb ▸ ha)⟩
    · simp only [keys, List.map_append, List.map_cons, List.map_nil]
      rw [List.nodup_append]
      exact ⟨hInv.camNodup, List.nodup_singleton _,
        by intro a ha hb; simp at hb; exact hdevfresh (hb ▸ ha)⟩
    · intro q hq halive hstop
      rcases List.mem_append.mp hq with h1 | h1
      · exact List.mem_append_left _ (hInv.aliveCam q h1 halive hstop)
      · simp at h1
        rw [h1]
        simp
    · intro hstop d
      show countAlive (s.threads ++ [(s.nextTid, ⟨dev_id, true⟩)]) d ≤ 1
      rw [countAlive_append]
      by_cases hd : d = dev_id
      · rw [hd, hzero hstop]
        simp [countAlive, List.filter]
      · have h0 : countAlive [(s.nextTid, ⟨dev_id, true⟩)] d = 0 := by
          simp [countAlive, List.filter, Ne.symm hd]
        rw [h0]
        simpa using hInv.aliveOne hstop d

theorem remove_pres (joinOk : Bool) (dev_id : Nat) (s : SysState) (hInv : SysInv s)
    (hcase : s.stopped = true ∨ camThreadAlive s dev_id = false) :
    SysInv (remove_camera joinOk dev_id s) := by
  unfold remove_camera
  rcases hl : lookupA s.cameras dev_id with _ | tid0
  · exact hInv
  · simp only
    have hrec0 : (dev_id, tid0) ∈ s.cameras := lookupA_mem hl
    constructor
    · intro q hq
      by_cases hj : joinOk
      · simp only [if_pos hj] at hq
        obtain ⟨q0, hq0, he1, _, _⟩ := mem_setDead hq
        exact he1 ▸ hInv.tidBound q0 hq0
      · simp only [if_neg hj] at hq
        exact hInv.tidBound q hq
    · by_cases hj : joinOk
      · simp only [if_pos hj]
        rw [keys_setDead]
        exact hInv.tidNodup
      · simp only [if_neg hj]
        exact hInv.tidNodup
    · exact keys_eraseKey_nodup hInv.camNodup
    · intro q hq halive hstop'
      have hstop : s.stopped = false := hstop'
      have hdead : camThreadAlive s dev_id = false := by
        rcases hcase with h | h
        · rw [h] at hstop
          exact absurd hstop (by simp)
        · exact h
      have hqpre : q ∈ s.threads := by
        by_cases hj : joinOk
        · simp only [if_pos hj] at hq
          obtain ⟨q0, hq0, _, _, hcl⟩ := mem_setDead hq
          rw [(hcl halive).1]
          exact hq0
        · simp only [if_neg hj] at hq
          exact hq
      have hcam := hInv.aliveCam q hqpre halive hstop
      have hne : q.2.dev ≠ dev_id := by
        intro he
        rw [he] at hcam
        have htid : q.1 = tid0 := keys_nodup_mem_unique hInv.camNodup hcam hrec0
        have hqq : (tid0, q.2) ∈ s.threads := by
          rw [← htid]
          exact (Prod.mk.eta (p := q)) ▸ hqpre
        have hlt : lookupA s.threads tid0 = some q.2 :=
          lookupA_of_mem_nodup hInv.tidNodup hqq
        have : camThreadAlive s dev_id = true := by
          unfold camThreadAlive
          simp only [hl, hlt]
          exact halive
        rw [this] at hdead
        exact absurd hdead (by simp)
      exact mem_eraseKey.mpr ⟨hcam, hne⟩
    · intro hstop' d
      have hstop : s.stopped = false := hstop'
      show countAlive (if joinOk then setDead tid0 s.threads else s.threads) d ≤ 1
      by_cases hj : joinOk
      · simp only [if_pos hj]
        exact Nat.le_trans (countAlive_setDead_le tid0 s.threads d)
          (hInv.aliveOne hstop d)
      · simp only [if_neg hj]
        exact hInv.aliveOne hstop d

theorem die_pres (tid : Nat) (s : SysState) (hInv : SysInv s) :
    SysInv (dieThread tid s) := by
  constructor
  · intro q hq
    obtain ⟨q0, hq0, he1, _, _⟩ := mem_setDead hq
    exact he1 ▸ hInv.tidBound q0 hq0
  · show (keys (setDead tid s.threads)).Nodup
    rw [keys_setDead]
    exact hInv.tidNodup
  · exact hInv.camNodup
  · intro q hq halive hstop
    obtain ⟨q0, hq0, _, _, hcl⟩ := mem_setDead hq
    rw [(hcl halive).1]
    exact hInv.aliveCam q0 hq0 ((hcl halive).1 ▸ halive) hstop
  · intro hstop d
    exact Nat.le_trans (countAlive_setDead_le tid s.threads d)
      (hInv.aliveOne hstop d)

theorem should_remove_dead {useIP : Bool} {discovered : List Nat} {s : SysState}
    {dev_id : Nat} (h : should_remove_sys useIP discovered s dev_id = true) :
    camThreadAlive s dev_id = false := by
  unfold should_remove_sys at h
  by_cases hip : useIP
  · rw [if_pos hip] at h
    simpa using h
  · rw [if_neg hip] at h
    rw [Bool.and_eq_true] at h
    simpa using h.2

theorem fold_add_pres (discovered : List Nat) :
    ∀ s : SysState, SysInv s →
      SysInv (discovered.foldl (fun acc d => add_camera d acc) s) := by
  induction discovered with
  | nil => intro s h; exact h
  | cons d rest ih =>
    intro s h
    rw [List.foldl_cons]
    exact ih _ (add_pres d s h)

theorem fold_tick_remove_pres (useIP : Bool) (discovered : List Nat) :
    ∀ (l : List Nat) (s : SysState), SysInv s →
      SysInv (l.foldl
        (fun acc d =>
          if should_remove_sys useIP discovered acc d then remove_camera true d acc
          else acc)
        s) := by
  intro l
  induction l with
  | nil => intro s h; exact h
  | cons d rest ih =>
    intro s h
    rw [List.foldl_cons]
    by_cases hr : should_remove_sys useIP discovered s d = true
    · rw [if_pos hr]
      exact ih _ (remove_pres true d s h (Or.inr (should_remove_dead hr)))
    · rw [if_neg hr]
      exact ih _ h

theorem fold_stop_remove_pres (joinOk : Nat → Bool) :
    ∀ (l : List Nat) (s : SysState), s.stopped = true → SysInv s →
      SysInv (l.foldl (fun acc d => remove_camera (joinOk d) d acc) s) := by
  intro l
  induction l with
  | nil => intro s _ h; exact h
  | cons d rest ih =>
    intro s hs h
    rw [List.foldl_cons]
    exact ih _ (by rw [remove_camera_stopped]; exact hs)
      (remove_pres (joinOk d) d s h (Or.inl hs))

theorem tick_start_pres (useIP : Bool) (discovered : List Nat) (s : SysState)
    (hInv : SysInv s) : SysInv (tick_start useIP discovered s) := by
  unfold tick_start
  by_cases hs : s.stopped
  · rw [if_pos hs]
    exact hInv
  · rw [if_neg hs]
    rcases hp : s.pending with _ | p
    · simp only [hp]
      exact ⟨hInv.tidBound, hInv.tidNodup, hInv.camNodup, hInv.aliveCam,
        hInv.aliveOne⟩
    · simp only [hp]
      exact hInv

theorem tick_apply_pres (s : SysState) (hInv : SysInv s) :
    SysInv (tick_apply s) := by
  unfold tick_apply
  rcases hp : s.pending with _ | ⟨useIP, discovered⟩
  · simp only [hp]
    exact hInv
  · simp only [hp]
    have h0 : SysInv ({ s with pending := none } : SysState) :=
      ⟨hInv.tidBound, hInv.tidNodup, hInv.camNodup, hInv.aliveCam, hInv.aliveOne⟩
    exact fold_tick_remove_pres useIP discovered _ _ (fold_add_pres discovered _ h0)

theorem stop_pres (joinOk : Nat → Bool) (s : SysState) (hInv : SysInv s) :
    SysInv (stop_all joinOk s) := by
  unfold stop_all
  have h1 : SysInv ({ s with stopped := true } : SysState) := by
    constructor
    · exact hInv.tidBound
    · exact hInv.tidNodup
    · exact hInv.camNodup
    · intro q hq halive hstop
      exact absurd hstop (by simp)
    · intro hstop
      exact absurd hstop (by simp)
  exact fold_stop_remove_pres joinOk _ _ rfl h1

theorem init_inv : SysInv initSys := by
  constructor
  · intro q hq; exact absurd hq (List.not_mem_nil q)
  · exact List.nodup_nil
  · exact List.nodup_nil
  · intro q hq; exact absurd hq (List.not_mem_nil q)
  · intro _ d; exact Nat.zero_le 1

theorem reach_inv {s : SysState} (h : Reach s) : SysInv s := by
  induction h with
  | init => exact init_inv
  | tickStart useIP discovered _ ih => exact tick_start_pres useIP discovered _ ih
  | tickApply _ ih => exact tick_apply_pres _ ih
  | die tid _ ih => exact die_pres tid _ ih
  | stop joinOk _ ih => exact stop_pres joinOk _ ih

/-- Claim C1 (counterexample): the program reaches two live workers for
one device.  A monitor tick passes its stop check and finishes discovery
with [0] (tick_start); stop() then runs in full on the main thread — it
holds no lock, signals worker A (wedged in a blocking frame_queue.put or
cap.read, so it never observes the signal), times out the 1.0-second
join and deletes the record in the finally branch anyway; the straddling
tick's mutation phase (tick_apply) then finds device 0 absent from the
table and _add_camera starts worker B while A is still running. -/
theorem two_live_workers_after_stop_race :
    Reach (tick_apply (stop_all (fun _ => false)
        (tick_start false [0] (tick_apply (tick_start false [0] initSys))))) ∧
      ¬(aliveCount (tick_apply (stop_all (fun _ => false)
        (tick_start false [0] (tick_apply (tick_start false [0] initSys))))) 0 ≤ 1) := by
  constructor
  · exact Reach.tickApply (Reach.stop (fun _ => false)
      (Reach.tickStart false [0]
        (Reach.tickApply (Reach.tickStart false [0] Reach.init))))
  · decide

/-- Claim C1 (amended): at every instant before the manager's stop event
is set — that is, throughout normal monitor-driven operation, where the
camera table is mutated only by the serialized monitor ticks under the
lock and records are only removed after their worker is observed dead —
at most one live capture worker thread exists per device identifier, and
_add_camera never starts a second thread while a previously started
thread for that id is still running.  The bound can only break after
stop() (which takes no lock) races a straddling tick: a timed-out join
abandons a live worker whose record is deleted, and the tick's delayed
add phase starts a second one. -/
theorem at_most_one_worker_before_stop {s : SysState} (h : Reach s)
    (hrun : s.stopped = false) (dev_id : Nat) : aliveCount s dev_id ≤ 1 :=
  (reach_inv h).aliveOne hrun dev_id

/-- Closed witness for at_most_one_worker_before_stop: after a completed
tick that discovered devices 0 and 1 and a death of thread 0, device 0
has at most one live worker. -/
theorem at_most_one_worker_before_stop_witness :
    aliveCount (dieThread 0 (tick_apply (tick_start false [0, 1] initSys))) 0 ≤ 1 :=
  at_most_one_worker_before_stop
    (Reach.die 0 (Reach.tickApply (Reach.tickStart false [0, 1] Reach.init)))
    rfl 0

/-! ### Claim theorems -/

/-- A well-formed colour frame with a 3-dimensional pixel buffer,
captured at time 0. -/
def frame3d (tag : Nat) : Frame := ⟨[480, 640, 3], tag, 0⟩

/-- Claim C2 (divergence evidence): BaseCameraManager._should_remove_camera,
inherited unchanged by IPCameraManager, never marks a fixed-list (IP)
device for removal even when its worker thread is dead, because
IPCameraManager._get_available_devices always reports every configured
index; the monolithic CameraManager (manager.py) does remove it, as the
spec describes. -/
theorem ip_manager_never_removes_dead_worker :
    should_remove_camera (ip_available_devices ["rtsp-url-0"]) false 0 = false ∧
      should_remove_camera_cm true (ip_available_devices ["rtsp-url-0"]) false 0 = true := by
  decide

/-- Claim C4 (divergence evidence): with frames for devices 4 and 5
queued and device 4's record removed between push and drain, the drain
loop of process_frames aborts on the KeyError from _update_camera_state:
device 5's frame is left queued, no callback is invoked, and no frame
map is returned this tick — the exception escapes process_frames instead
of being contained per frame. -/
theorem drain_aborts_on_missing_device :
    drainLoop (fun _ => false) 10 [(4, some (frame3d 4)), (5, some (frame3d 5))]
        ⟨[], [(5, ⟨none, 0⟩)], []⟩ =
      Except.error (⟨[(4, frame3d 4)], [(5, ⟨none, 0⟩)], []⟩, [(5, some (frame3d 5))]) := by
  rfl

/-- Claim C9: a queue item whose frame is None, or whose pixel buffer is
not 3-dimensional, is silently dropped by the drain loop: the drain of
the remaining items proceeds exactly as if the item had not been there,
so the frame appears in no map, updates no cache entry or timestamp, and
triggers no callback. -/
theorem invalid_frame_dropped (cbThrows : Nat → Bool) (now : ℚ) (dev_id : Nat)
    (res : Option Frame) (rest : List (Nat × Option Frame)) (st : DrainState)
    (h : res = none ∨ ∃ f, res = some f ∧ f.shape.length ≠ 3) :
    drainLoop cbThrows now ((dev_id, res) :: rest) st = drainLoop cbThrows now rest st := by
  rcases h with h | ⟨f, hf, hlen⟩
  · subst h
    rfl
  · subst hf
    simp only [drainLoop, if_neg hlen]

/-- Closed witness for invalid_frame_dropped: a None frame for device 7
and a 2-dimensional frame for device 8 are both dropped. -/
theorem invalid_frame_dropped_witness :
    drainLoop (fun _ => false) 0 [(7, none)] ⟨[], [], []⟩ =
        drainLoop (fun _ => false) 0 [] ⟨[], [], []⟩ ∧
      drainLoop (fun _ => false) 0 [(8, some ⟨[480, 640], 8, 0⟩)] ⟨[], [], []⟩ =
        drainLoop (fun _ => false) 0 [] ⟨[], [], []⟩ :=
  ⟨invalid_frame_dropped (fun _ => false) 0 7 none [] ⟨[], [], []⟩ (Or.inl rfl),
    invalid_frame_dropped (fun _ => false) 0 8 (some ⟨[480, 640], 8, 0⟩) [] ⟨[], [], []⟩
      (Or.inr ⟨⟨[480, 640], 8, 0⟩, rfl, by decide⟩)⟩

/-- Claim C8 (counterexample): the delay _handle_camera_error inserts
after an open failure below max_retries is 2.0 time units, not the 1
time unit the claim states. -/
theorem open_retry_delay_is_two :
    (handle_camera_error 3 initRun).effects = [Effect.sleep 2] ∧
      Effect.sleep 2 ≠ Effect.sleep 1 := by
  constructor
  · rfl
  · intro h
    have : (2 : ℚ) = 1 := by injection h
    norm_num at this

/-- Claim C8 (amended): for every open failure with the failure counter
still below max_retries, the worker increments the counter and waits a
fixed delay of 2 time units before retrying the open (threads.py has no
separate 1-unit open-retry delay; 2.0 is the only reconnect backoff). -/
theorem open_failure_fixed_delay (max_retries : Nat) (st : RunState)
    (h : st.retry_count + 1 < max_retries) :
    (handle_camera_error max_retries st).retry_count = st.retry_count + 1 ∧
      (handle_camera_error max_retries st).effects = st.effects ++ [Effect.sleep 2] := by
  unfold handle_camera_error
  rw [if_pos h]
  exact ⟨rfl, rfl⟩

/-- Closed witness for open_failure_fixed_delay at the first failure of
a fresh worker. -/
theorem open_failure_fixed_delay_witness :
    (handle_camera_error 3 initRun).retry_count = initRun.retry_count + 1 ∧
      (handle_camera_error 3 initRun).effects = initRun.effects ++ [Effect.sleep 2] :=
  open_failure_fixed_delay 3 initRun (by decide)

theorem runLoop_three_fails (rest : List Attempt) :
    runLoop 5 3 0 (Attempt.openFail :: Attempt.openFail :: Attempt.openFail :: rest)
        initRun =
      { retry_count := 3, stopFlag := false, pushed := [],
        effects := [Effect.sleep 2, Effect.sleep 2], opens := 3,
        enteredStreaming := false, last_frame_time := 0 } := by
  have h1 : runLoop 5 3 0
      (Attempt.openFail :: Attempt.openFail :: Attempt.openFail :: rest) initRun =
      runLoop 5 3 0 rest
        { retry_count := 3, stopFlag := false, pushed := [],
          effects := [Effect.sleep 2, Effect.sleep 2], opens := 3,
          enteredStreaming := false, last_frame_time := 0 } := rfl
  rw [h1]
  exact runLoop_halt _ _ _ _ _ (by decide)

/-- Claim C6: a worker whose every open attempt fails (stop event never
set) terminates after exactly max_retries = 3 consecutive open failures:
it makes exactly 3 open attempts regardless of how many more failures
the device would offer, never enters the streaming state, and pushes no
frame to the queue. -/
theorem worker_exhausts_retries (n : Nat) (h : 3 ≤ n) :
    (runLoop 5 3 0 (List.replicate n Attempt.openFail) initRun).opens = 3 ∧
      (runLoop 5 3 0 (List.replicate n Attempt.openFail) initRun).retry_count = 3 ∧
      (runLoop 5 3 0 (List.replicate n Attempt.openFail) initRun).enteredStreaming
        = false ∧
      (runLoop 5 3 0 (List.replicate n Attempt.openFail) initRun).pushed = [] := by
  obtain ⟨m, rfl⟩ := Nat.exists_eq_add_of_le h
  have hrep : List.replicate (3 + m) Attempt.openFail =
      Attempt.openFail :: Attempt.openFail :: Attempt.openFail ::
        List.replicate m Attempt.openFail := by
    rw [Nat.add_comm]
    rfl
  rw [hrep, runLoop_three_fails]
  exact ⟨rfl, rfl, rfl, rfl⟩

/-- Closed witness for worker_exhausts_retries: five available failures,
only three consumed. -/
theorem worker_exhausts_retries_witness :
    (runLoop 5 3 0 (List.replicate 5 Attempt.openFail) initRun).opens = 3 ∧
      (runLoop 5 3 0 (List.replicate 5 Attempt.openFail) initRun).retry_count = 3 ∧
      (runLoop 5 3 0 (List.replicate 5 Attempt.openFail) initRun).enteredStreaming
        = false ∧
      (runLoop 5 3 0 (List.replicate 5 Attempt.openFail) initRun).pushed = [] :=
  worker_exhausts_retries 5 (by decide)

/-- Claim C3 (amended): a read failure at elapsed stream time
t < min_uptime keeps the worker in the read loop after a 0.1-unit sleep,
changing nothing else (in particular neither retry_count nor the device
handle); a read failure at t ≥ min_uptime ends the session (break), the
device is released by the run loop's finally branch, and retry_count is
left at the 0 it was reset to when the session opened — it is NOT
incremented, because the break raises no exception and
_handle_camera_error never runs. -/
theorem read_failure_policy (min_uptime start_time now : ℚ) (camera_id : Nat)
    (rest : List StreamEv) (st : RunState) :
    (now - start_time < min_uptime →
      streamLoop min_uptime start_time camera_id (StreamEv.read now none :: rest) st =
        streamLoop min_uptime start_time camera_id rest
          { st with effects := st.effects ++ [Effect.sleep (1/10)] }) ∧
    (min_uptime ≤ now - start_time →
      streamLoop min_uptime start_time camera_id (StreamEv.read now none :: rest) st =
          (st, StreamEnd.broke) ∧
        (runLoop min_uptime 3 camera_id
          [Attempt.openOk start_time (StreamEv.read now none :: rest)]
          initRun).retry_count = 0 ∧
        Effect.release ∈ (runLoop min_uptime 3 camera_id
          [Attempt.openOk start_time (StreamEv.read now none :: rest)]
          initRun).effects) := by
  constructor
  · intro h
    simp only [streamLoop, if_pos h]
  · intro h
    have hnlt : ¬(now - start_time < min_uptime) := not_lt.mpr h
    have hloop : ∀ st' : RunState,
        streamLoop min_uptime start_time camera_id
          (StreamEv.read now none :: rest) st' = (st', StreamEnd.broke) := by
      intro st'
      simp only [streamLoop, if_neg hnlt]
    refine ⟨hloop st, ?_, ?_⟩
    · simp only [runLoop, process_camera_stream, hloop]
      rfl
    · simp only [runLoop, process_camera_stream, hloop]
      simp [initRun]

/-- Closed witness for read_failure_policy with min_uptime = 5: an early
failure at t = 1 retries in place after sleeping 0.1; a late failure at
t = 6 ends the session with the device released and retry_count 0. -/
theorem read_failure_policy_witness :
    (streamLoop 5 0 0 [StreamEv.read 1 none] initRun =
        streamLoop 5 0 0 []
          { initRun with effects := initRun.effects ++ [Effect.sleep (1/10)] }) ∧
      (streamLoop 5 0 0 [StreamEv.read 6 none] initRun = (initRun, StreamEnd.broke) ∧
        (runLoop 5 3 0 [Attempt.openOk 0 [StreamEv.read 6 none]] initRun).retry_count
          = 0 ∧
        Effect.release ∈
          (runLoop 5 3 0 [Attempt.openOk 0 [StreamEv.read 6 none]] initRun).effects) :=
  ⟨(read_failure_policy 5 0 1 0 [] initRun).1 (by norm_num),
    (read_failure_policy 5 0 6 0 [] initRun).2 (by norm_num)⟩

/-- Claim C3 (counterexample): after a read failure at elapsed time
6 ≥ min_uptime = 5 the failure streak is 0, not the 1 the claim's
"increments the failure streak by one" would require. -/
theorem late_read_failure_no_increment :
    (runLoop 5 3 0 [Attempt.openOk 0 [StreamEv.read 6 none]] initRun).retry_count = 0 ∧
      (0 : Nat) ≠ 1 := by
  have hnlt : ¬((6 : ℚ) - 0 < 5) := by norm_num
  constructor
  · simp only [runLoop, process_camera_stream, streamLoop, if_neg hnlt]
    rfl
  · decide

/-- Claim C5 (amended): retry_count is reset to zero at the start of
every streaming session, immediately after a successful open
(_process_camera_stream's first statement), regardless of how long the
session then lasts; nothing in the read loop ever changes it again. -/
theorem retry_reset_on_open (min_uptime start_time : ℚ)
    (camera_id max_retries : Nat) (evs : List StreamEv) (st : RunState)
    (h1 : st.stopFlag = false) (h2 : st.retry_count < max_retries) :
    (runLoop min_uptime max_retries camera_id [Attempt.openOk start_time evs]
        st).retry_count = 0 := by
  have hcond : (!st.stopFlag && decide (st.retry_count < max_retries)) = true := by
    rw [h1]
    simpa using h2
  have hrc : (process_camera_stream min_uptime start_time camera_id evs
      { st with opens := st.opens + 1 }).1.retry_count = 0 := by
    unfold process_camera_stream
    rw [streamLoop_retry_count]
  rcases hout : process_camera_stream min_uptime start_time camera_id evs
      { st with opens := st.opens + 1 } with ⟨st', e⟩
  rw [hout] at hrc
  simp only at hrc
  simp only [runLoop, hcond, if_true, hout]
  cases e
  · simp only [runLoop]
    exact hrc
  · simp only [runLoop]
    exact hrc
  · exact hrc

/-- Closed witness for retry_reset_on_open: a worker with two prior
failures opens successfully and is immediately stopped; its counter is
already 0. -/
theorem retry_reset_on_open_witness :
    (runLoop 5 3 0 [Attempt.openOk 0 [StreamEv.stopObserved]]
        { initRun with retry_count := 2 }).retry_count = 0 :=
  retry_reset_on_open 5 0 0 3 [StreamEv.stopObserved]
    { initRun with retry_count := 2 } rfl (by decide)

/-- Claim C5 (counterexample): a worker carrying failure streak 2 opens
successfully and has streamed for only 1 < min_uptime = 5 time units,
yet its counter has already been reset to 0 — refuting "reset ... only
after the stream has run for at least min_uptime". -/
theorem retry_reset_despite_short_stream :
    (runLoop 5 3 0 [Attempt.openOk 0 [StreamEv.read 1 (some (frame3d 0))]]
        { initRun with retry_count := 2 }).retry_count = 0 ∧
      (0 : Nat) ≠ 2 := by
  exact ⟨rfl, by decide⟩

/-- Claim C7 (amended): freshness is guaranteed relative to drain time,
not capture time.  Every entry of the frame map returned by a successful
process_frames is backed by a record in the final camera table whose
last_update timestamp is strictly younger than the 5-unit freshness
window relative to this tick's time `now`: frames drained this tick were
stamped `now` itself by _update_camera_state (whatever their capture
age — the queue carries no timestamps), and cached frames are
synthesised only under the strict last_update age check of
_add_cached_frames. -/
theorem frame_map_freshness (cbThrows : Nat → Bool) (now : ℚ)
    (queued : List (Nat × Option Frame)) (cameras : List (Nat × CamRec))
    (out : List (Nat × Frame) × DrainState)
    (h : process_frames cbThrows now queued cameras = Except.ok out)
    (dev_id : Nat) (f : Frame) (hm : (dev_id, f) ∈ out.1) :
    ∃ rec, (dev_id, rec) ∈ out.2.cameras ∧ rec.last_frame = some f ∧
      now - rec.last_update < 5 := by
  unfold process_frames at h
  rcases hd : drainLoop cbThrows now queued ⟨[], cameras, []⟩ with e | st
  · rw [hd] at h
    exact absurd h (by simp)
  · rw [hd] at h
    simp only [Except.ok.injEq] at h
    have hfresh : FramesFresh now st := by
      refine drainLoop_fresh cbThrows now queued ⟨[], cameras, []⟩ st ⟨?_, ?_⟩ hd
      · exact List.nodup_nil
      · intro p hp
        exact absurd hp (List.not_mem_nil p)
    rw [← h] at hm ⊢
    rcases mem_add_cached now st.cameras st.frames (dev_id, f) hm with h1 |
        ⟨rec, hrec, hr1, hr2⟩
    · obtain ⟨rec, hrec, hlf, hlu⟩ := hfresh.2 _ h1
      refine ⟨rec, hrec, hlf, ?_⟩
      rw [hlu]
      simp only [sub_self]
      norm_num
    · exact ⟨rec, hrec, hr1, hr2⟩

/-- Closed witness for frame_map_freshness: one frame drained at tick
time 10 is found in the final table with timestamp 10. -/
theorem frame_map_freshness_witness :
    ∃ rec, (1, rec) ∈ (([(1, frame3d 1)],
        (⟨[(1, frame3d 1)], [(1, ⟨some (frame3d 1), 10⟩)], [(1, frame3d 1)]⟩ :
          DrainState)) :
        List (Nat × Frame) × DrainState).2.cameras ∧
      rec.last_frame = some (frame3d 1) ∧ (10 : ℚ) - rec.last_update < 5 :=
  frame_map_freshness (fun _ => false) 10 [(1, some (frame3d 1))] [(1, ⟨none, 0⟩)]
    ([(1, frame3d 1)],
      ⟨[(1, frame3d 1)], [(1, ⟨some (frame3d 1), 10⟩)], [(1, frame3d 1)]⟩)
    rfl 1 (frame3d 1) (List.mem_singleton.mpr rfl)

/-- Claim C7 (counterexample): queued frames are delivered regardless of
capture age.  A frame captured at time 0 (ghost field `captured`) that
sat in the bounded queue while the consumer was slow is drained at tick
time 10 and appears in the returned frame map, although its capture
timestamp is 10 > 5 units older than the tick's time: no capture
timestamp accompanies queued frames, so process_frames cannot and does
not bound capture-time age (and the drained frame is then cached with a
fresh drain-time stamp). -/
theorem stale_capture_frame_served :
    process_frames (fun _ => false) 10 [(1, some (frame3d 1))] [(1, ⟨none, 0⟩)] =
        Except.ok ([(1, frame3d 1)],
          ⟨[(1, frame3d 1)], [(1, ⟨some (frame3d 1), 10⟩)], [(1, frame3d 1)]⟩) ∧
      (5 : ℚ) < 10 - (frame3d 1).captured := by
  constructor
  · rfl
  · norm_num [frame3d]

end OmniView
